import Mathlib

/-!
Verification development for the channel coordination engine of the
`cleo-dev` repository (`src/adapters/channels/` and `src/core/`).

The Python source is shallowly embedded as executable Lean definitions:
  * text utilities and `ChannelManager._clean_result`
    (`src/adapters/channels/manager.py`), including the specific
    `re.sub` patterns it applies, specialised to faithful matchers
    (leftmost match, Python backtracking order, continue after match);
  * `ChannelManager._chunk_message`;
  * `SessionStore` (`src/adapters/channels/session.py`);
  * `ChannelMessage.__post_init__` (`src/adapters/channels/base.py`);
  * `ChannelManager._wait_for_result` (poll loop), with the external
    TaskBoard treated as a black box: each poll reads an abstract
    board view supplied as a parameter;
  * the message-processing pipeline `_task_processor` / `_process_message`;
  * the health supervisor `_health_monitor` together with the
    guard-free `TelegramAdapter.reconnect`, as a small event-step system.

Timestamps are modelled as naturals and the adapter as an event log.
File-system side effects that no claim depends on (saving
`.channel_session.json`) are noted but not modelled.
-/

/-! ## Python text primitives -/

/-- Python whitespace (the ASCII part of `str.strip` and of regex `\s`);
every string in this development stays within this set. -/
def pyWS (c : Char) : Bool :=
  c = ' ' || c = '\t' || c = '\n' || c = '\r' || c = '\x0b' || c = '\x0c'

/-- Python `str.lstrip()`. -/
def lstrip (s : List Char) : List Char := s.dropWhile pyWS

/-- Python `str.strip()`. -/
def stripText (s : List Char) : List Char :=
  ((s.dropWhile pyWS).reverse.dropWhile pyWS).reverse

/-- If `lit` is a prefix of `s`, return the remainder of `s` after it. -/
def afterLit (lit s : List Char) : Option (List Char) :=
  match lit, s with
  | [], rest => some rest
  | _ :: _, [] => none
  | a :: la, b :: lb => if a = b then afterLit la lb else none

/-- Does `sub` occur as a contiguous substring of `s`? -/
def hasSub (sub : List Char) : List Char → Bool
  | [] => (afterLit sub []).isSome
  | c :: cs => (afterLit sub (c :: cs)).isSome || hasSub sub cs

/-- One pass of Python `re.sub`: scan left to right; where the matcher
fires, emit `repl` and continue after the match; matched spans are
non-overlapping.  `fuel` bounds the recursion; every matcher used here
consumes at least one character, so `fuel = s.length` is always enough. -/
def substAux (m : List Char → Option (List Char)) (repl : List Char) :
    Nat → List Char → List Char
  | 0, s => s
  | _ + 1, [] => []
  | f + 1, c :: cs =>
    match m (c :: cs) with
    | some rest => repl ++ substAux m repl f rest
    | none => c :: substAux m repl f cs

/-- Python `re.sub(pattern, repl, s)` for a matcher `m` specialised to
one pattern. -/
def subst (m : List Char → Option (List Char)) (repl : List Char)
    (s : List Char) : List Char :=
  substAux m repl s.length s

/-! ## The matchers of `_clean_result`

Each matcher implements one `re.sub` pattern of
`ChannelManager._clean_result`, at the head of the given suffix,
returning the remainder after the match.  Lazy stars over a
single-character class followed by a literal reduce to "earliest
occurrence of the literal"; a greedy `\s*` (or `[^}]*`) followed by a
character outside the class reduces to "skip the maximal run, then
require the literal", because every shorter backtrack puts a class
character where the literal must start. -/

/-- Scan for the earliest occurrence of `lit`; if `noNL` (the pattern
used `.` rather than `[\s\S]`), fail as soon as a newline would have to
be consumed by the star. -/
def scanToLit (lit : List Char) (noNL : Bool) : List Char → Option (List Char)
  | [] => if lit = [] then some [] else none
  | c :: cs =>
    match afterLit lit (c :: cs) with
    | some rest => some rest
    | none => if noNL && c = '\n' then none else scanToLit lit noNL cs

/-- Skip the maximal whitespace run. -/
def dropWS (s : List Char) : List Char := s.dropWhile pyWS

/-- Pattern `<!--\s*agent:.*?-->`. -/
def matchAgent (s : List Char) : Option (List Char) :=
  match afterLit "<!--".data s with
  | none => none
  | some r1 =>
    match afterLit "agent:".data (dropWS r1) with
    | none => none
    | some r2 => scanToLit "-->".data true r2

/-- Pattern `<think>[\s\S]*?</think>`. -/
def matchThink (s : List Char) : Option (List Char) :=
  match afterLit "<think>".data s with
  | none => none
  | some r1 => scanToLit "</think>".data false r1

/-- Tail of the fenced-JSON pattern after a candidate `]`:
`\s*\n?` then three backticks. -/
def json1Tail (r : List Char) : Option (List Char) :=
  afterLit "```".data (dropWS r)

/-- Lazy `[\s\S]*?\]` with backtracking over successive `]` candidates,
each followed by `json1Tail`. -/
def json1Br : List Char → Option (List Char)
  | [] => none
  | c :: cs =>
    if c = ']' then
      match json1Tail cs with
      | some r => some r
      | none => json1Br cs
    else json1Br cs

/-- `"task"` or `"role"` (quotes included) at the head. -/
def kwAt (s : List Char) : Option (List Char) :=
  match afterLit "\"task\"".data s with
  | some r => some r
  | none => afterLit "\"role\"".data s

/-- Lazy `[\s\S]*?"(?:task|role)"` with backtracking: earliest keyword
position whose continuation (`json1Br`) also succeeds. -/
def json1Kw : List Char → Option (List Char)
  | [] => none
  | c :: cs =>
    match kwAt (c :: cs) with
    | some r =>
      match json1Br r with
      | some x => some x
      | none => json1Kw cs
    | none => json1Kw cs

/-- Pattern `` ```json\s*\n?\s*\[[\s\S]*?"(?:task|role)"[\s\S]*?\]\s*\n?``` ``. -/
def matchJson1 (s : List Char) : Option (List Char) :=
  match afterLit "```json".data s with
  | none => none
  | some r1 =>
    match afterLit "[".data (dropWS r1) with
    | none => none
    | some r2 => json1Kw r2

/-- Greedy `[^}]*\}`: skip to the first `}` and consume it. -/
def closeBrace : List Char → Option (List Char)
  | [] => none
  | c :: cs => if c = '}' then some cs else closeBrace cs

/-- Greedy `\s*$` (MULTILINE): consume the longest whitespace run that
ends at end-of-string, or backtrack to the last position inside the run
that sits just before a newline (the zero-width `$`). -/
def endWSAux : List Char → Option (List Char)
  | [] => some []
  | c :: cs =>
    if pyWS c then
      match endWSAux cs with
      | some x => some x
      | none => if c = '\n' then some (c :: cs) else none
    else none

/-- Tail after the keyword in the MULTILINE pattern:
`[^}]*\}\s*\]\s*$`. -/
def json2Tail (r : List Char) : Option (List Char) :=
  match closeBrace r with
  | none => none
  | some r3 =>
    match afterLit "]".data (dropWS r3) with
    | none => none
    | some r4 => endWSAux r4

/-- Greedy `[^}]*"(?:task|role)"` with backtracking from the longest
star first: rightmost keyword position (within the maximal `[^}]` run)
whose continuation also succeeds. -/
def json2From : List Char → Option (List Char)
  | [] => none
  | c :: cs =>
    match (if c = '}' then none else json2From cs) with
    | some r => some r
    | none =>
      match kwAt (c :: cs) with
      | some r2 => json2Tail r2
      | none => none

/-- Pattern `^\s*\[\s*\{[^}]*"(?:task|role)"[^}]*\}\s*\]\s*$` with
`re.MULTILINE`; the `^` anchor is checked by the caller. -/
def matchJson2 (s : List Char) : Option (List Char) :=
  match afterLit "[".data (dropWS s) with
  | none => none
  | some r1 =>
    match afterLit "\x7b".data (dropWS r1) with
    | none => none
    | some r2 => json2From r2

/-- The MULTILINE substitution for `matchJson2`: the matcher may fire
only at the start of the string or right after a newline; after a match
the line-start flag reflects the last consumed character of the
original string. -/
def subst2Aux : Nat → Bool → List Char → List Char
  | 0, _, s => s
  | _ + 1, _, [] => []
  | f + 1, ls, c :: cs =>
    match (if ls then matchJson2 (c :: cs) else none) with
    | some rest =>
      let consumed := (c :: cs).length - rest.length
      let lastConsumed := (c :: cs).getD (consumed - 1) c
      subst2Aux f (lastConsumed = '\n') rest
    | none => c :: subst2Aux f (c = '\n') cs

/-- `re.sub` for the MULTILINE raw-JSON-array pattern (replacement is
empty). -/
def subst2 (s : List Char) : List Char := subst2Aux s.length true s

/-- Pattern `\n---\n` (literal). -/
def matchSep (s : List Char) : Option (List Char) :=
  afterLit "\n---\n".data s

/-- Pattern `\n{3,}` (greedy: the whole newline run). -/
def matchNL3 : List Char → Option (List Char)
  | c1 :: c2 :: c3 :: rest =>
    if c1 = '\n' ∧ c2 = '\n' ∧ c3 = '\n' then
      some (rest.dropWhile (fun c => c = '\n'))
    else none
  | _ => none

/-- `ChannelManager._clean_result` (manager.py): strip internal
metadata from a result before sending it to the user.  The five
substitutions run in source order, then `str.strip()`. -/
def cleanResult (s : String) : String :=
  let t1 := subst matchAgent [] s.data
  let t2 := subst matchThink [] t1
  let t3 := subst matchJson1 [] t2
  let t4 := subst2 t3
  let t5 := subst matchSep "\n\n".data t4
  let t6 := subst matchNL3 "\n\n".data t5
  (stripText t6).asString

/-! ## `ChannelManager._chunk_message` -/

/-- Python `s.rfind(sub, 0, e)`: the largest start index of an
occurrence of `sub` lying entirely inside `s[0:e]`; `none` replaces
Python's `-1`. -/
def rfindSub (sub s : List Char) (e : Nat) : Option Nat :=
  (List.range (min e s.length + 1 - sub.length)).reverse.find?
    (fun i => (afterLit sub (s.drop i)).isSome)

/-- The `if split_at <= 0` guard: a find result of `-1` (none) or `0`
is rejected. -/
def posGuard (o : Option Nat) : Option Nat :=
  o.bind (fun i => if 0 < i then some i else none)

/-- The split position chosen by `_chunk_message` for an over-long
`remaining`: paragraph break, then line break, then space, then a hard
cut at `maxLen`. -/
def splitPos (s : List Char) (maxLen : Nat) : Nat :=
  match posGuard (rfindSub "\n\n".data s maxLen) with
  | some i => i
  | none =>
    match posGuard (rfindSub "\n".data s maxLen) with
    | some i => i
    | none =>
      match posGuard (rfindSub " ".data s maxLen) with
      | some i => i
      | none => maxLen

/-- The `while remaining:` loop of `_chunk_message`.  `fuel` bounds the
iteration count; since each iteration removes at least `splitPos ≥ 1`
characters whenever `0 < maxLen`, `fuel = s.length` is always enough.
(For `maxLen = 0` the Python loop does not terminate on
whitespace-free input; the model then stops when fuel runs out.) -/
def chunkLoop (maxLen : Nat) : Nat → List Char → List (List Char)
  | _, [] => []
  | 0, _ :: _ => []
  | f + 1, c :: cs =>
    if (c :: cs).length ≤ maxLen then [c :: cs]
    else
      (c :: cs).take (splitPos (c :: cs) maxLen) ::
        chunkLoop maxLen f (lstrip ((c :: cs).drop (splitPos (c :: cs) maxLen)))

/-- `ChannelManager._chunk_message` (manager.py). -/
def chunkMessage (text : List Char) (maxLen : Nat) : List (List Char) :=
  if text.length ≤ maxLen then [text] else chunkLoop maxLen text.length text

/-- String-level wrapper used by the processing pipeline. -/
def chunkMessageS (text : String) (maxLen : Nat) : List String :=
  (chunkMessage text.data maxLen).map List.asString

/-! ## Session store (`src/adapters/channels/session.py`)

The JSON file is modelled as an association list keyed by session id
(Python dict: insertion order preserved, `d[k] = v` updates in place).
Timestamps (`time.time()`) are passed in as naturals. -/

/-- `ChannelSession` dataclass (session.py). -/
structure ChannelSession where
  session_id : String
  channel : String
  chat_id : String
  user_ids : List String
  user_names : List String
  message_count : Nat
  last_task_id : String
  last_active : Nat
  created_at : Nat
deriving DecidableEq, Repr

/-- The persisted mapping from session id to session record. -/
abbrev SessionData := List (String × ChannelSession)

/-- Python dict lookup `data.get(k)` / `k in data`. -/
def lookupSession (data : SessionData) (k : String) : Option ChannelSession :=
  (data.find? (fun p => p.1 = k)).map (fun p => p.2)

/-- Python dict update `data[k] = v` for a key already present
(in-place, order preserved). -/
def setAssoc (data : SessionData) (k : String) (v : ChannelSession) :
    SessionData :=
  data.map (fun p => if p.1 = k then (k, v) else p)

/-- The existing-session branch of `SessionStore.get_or_create`
(session.py): track unseen users (`if user_id and user_id not in ...`),
bump `message_count`, refresh `last_active`. -/
def touchSession (s : ChannelSession) (user_id user_name : String)
    (now : Nat) : ChannelSession :=
  let s1 := if user_id ≠ "" ∧ user_id ∉ s.user_ids then
      { s with user_ids := s.user_ids ++ [user_id] } else s
  let s2 := if user_name ≠ "" ∧ user_name ∉ s1.user_names then
      { s1 with user_names := s1.user_names ++ [user_name] } else s1
  { s2 with message_count := s2.message_count + 1, last_active := now }

/-- The new-session branch of `SessionStore.get_or_create`
(session.py). -/
def freshSession (session_id channel chat_id user_id user_name : String)
    (now : Nat) : ChannelSession :=
  { session_id := session_id, channel := channel, chat_id := chat_id,
    user_ids := if user_id ≠ "" then [user_id] else [],
    user_names := if user_name ≠ "" then [user_name] else [],
    message_count := 1, last_task_id := "", last_active := now,
    created_at := now }

/-- `SessionStore.get_or_create` (session.py): returns the (updated or
created) session and the new store contents.  `now` stands for
`time.time()`. -/
def getOrCreate (data : SessionData) (channel chat_id user_id user_name : String)
    (now : Nat) : ChannelSession × SessionData :=
  let session_id := channel ++ ":" ++ chat_id
  match lookupSession data session_id with
  | some s =>
    let s3 := touchSession s user_id user_name now
    (s3, setAssoc data session_id s3)
  | none =>
    let s := freshSession session_id channel chat_id user_id user_name now
    (s, data ++ [(session_id, s)])

/-- `SessionStore.update_task` (session.py): update `last_task_id` and
`last_active` when the session exists; otherwise the store is left
untouched and no error is raised. -/
def updateTask (data : SessionData) (session_id task_id : String) (now : Nat) :
    SessionData :=
  match lookupSession data session_id with
  | some s =>
    setAssoc data session_id { s with last_task_id := task_id, last_active := now }
  | none => data

/-- The backing file of the store as `SessionStore._read` sees it:
present with a valid JSON document, absent (`FileNotFoundError`), or
present but not valid JSON (`json.JSONDecodeError`). -/
inductive StoreFile
  | missing
  | corrupt
  | valid (data : SessionData)

/-- `SessionStore._read` (session.py): both a missing file and a
corrupt file are caught and yield the empty mapping. -/
def readStore : StoreFile → SessionData
  | .missing => []
  | .corrupt => []
  | .valid d => d

/-- `SessionStore.get_all_sessions` (session.py). -/
def getAllSessions (fs : StoreFile) : List ChannelSession :=
  (readStore fs).map (fun p => p.2)

/-- Stable descending insertion by `last_active` (the effect of
Python's stable `sort(key=..., reverse=True)`). -/
def insertByActive (s : ChannelSession) : List ChannelSession → List ChannelSession
  | [] => [s]
  | t :: ts =>
    if t.last_active ≤ s.last_active then s :: t :: ts
    else t :: insertByActive s ts

/-- Sort most-recent-first, stably. -/
def sortByActive : List ChannelSession → List ChannelSession
  | [] => []
  | s :: ss => insertByActive s (sortByActive ss)

/-- `SessionStore.get_active_sessions` (session.py): sessions whose
`last_active` lies within the last `maxAgeHours` hours, most recent
first (Python stable sort with `reverse=True`). -/
def getActiveSessions (fs : StoreFile) (now maxAgeHours : Nat) :
    List ChannelSession :=
  let cutoff := now - maxAgeHours * 3600
  sortByActive (((readStore fs).map (fun p => p.2)).filter
    (fun s => cutoff < s.last_active))

/-- A store operation, for reasoning about every state the store can
reach through its own interface (the store is the single writer of its
file). -/
inductive StoreOp
  | getOrCreate (channel chat_id user_id user_name : String) (now : Nat)
  | updateTask (session_id task_id : String) (now : Nat)

/-- Run one store operation. -/
def runOp (data : SessionData) : StoreOp → SessionData
  | .getOrCreate ch cid uid uname now => (getOrCreate data ch cid uid uname now).2
  | .updateTask sid tid now => updateTask data sid tid now

/-- Run a sequence of store operations from the empty store (the store
initialises its file to `{}`). -/
def runOps (ops : List StoreOp) : SessionData :=
  ops.foldl runOp []

/-! ## Normalized message (`src/adapters/channels/base.py`) -/

/-- `ChannelMessage` dataclass (base.py); the unserialised SDK object
`raw` is omitted, attachment records are kept as key-value lists. -/
structure ChannelMessage where
  channel : String
  chat_id : String
  user_id : String
  user_name : String
  text : String
  message_id : String
  reply_to_message_id : String
  is_group : Bool
  attachments : List (List (String × String))
  timestamp : Nat
  session_id : String
deriving DecidableEq, Repr

/-- Dataclass construction followed by `ChannelMessage.__post_init__`:
an empty `session_id` (the dataclass default — every construction site
in the repository omits the field) is replaced by
`"{channel}:{chat_id}"`. -/
def mkChannelMessage (channel chat_id user_id user_name text message_id
    reply_to : String) (is_group : Bool)
    (attachments : List (List (String × String))) (timestamp : Nat)
    (session_id : String) : ChannelMessage :=
  { channel := channel, chat_id := chat_id, user_id := user_id,
    user_name := user_name, text := text, message_id := message_id,
    reply_to_message_id := reply_to, is_group := is_group,
    attachments := attachments, timestamp := timestamp,
    session_id := if session_id = "" then channel ++ ":" ++ chat_id
      else session_id }

/-! ## Result polling (`ChannelManager._wait_for_result`)

The external TaskBoard (`core.task_board`, outside the engine per the
spec) is a black box: the `k`-th call to `board._read()` during one
poll loop returns `(reads k).data`, and `board.collect_results` at that
moment returns `(reads k).collected`.  Wall-clock time advances by
`POLL_INTERVAL` per loop iteration (the fixed sleep); `elapsed` after
the sleep of iteration `i` is `POLL_INTERVAL * (i + 1)`. -/

def TASK_TIMEOUT : Nat := 600
def POLL_INTERVAL : Nat := 2
def STATUS_INTERVAL : Nat := 30
def HEALTH_CHECK_INTERVAL : Nat := 60

/-- One record of the TaskBoard state store: `{status, result}`;
an absent / null result is the empty string (both are falsy). -/
structure TaskRec where
  status : String
  result : String
deriving DecidableEq, Repr

/-- The board document: task id to record (JSON object). -/
abbrev BoardData := List (String × TaskRec)

/-- One observation of the external board. -/
structure BoardView where
  data : BoardData
  collected : String
deriving Repr

/-- The "active" states of `_wait_for_result`. -/
def activeStates : List String :=
  ["pending", "claimed", "review", "critique", "blocked", "paused",
   "synthesizing"]

/-- `any(t.get("status") in active_states for t in data.values())`. -/
def hasActive (d : BoardData) : Bool :=
  d.any (fun p => activeStates.contains p.2.status)

/-- `data.get(task_id)`. -/
def lookupTask (d : BoardData) (tid : String) : Option TaskRec :=
  (d.find? (fun p => p.1 = tid)).map (fun p => p.2)

/-- The `(无结果)` placeholder of `_wait_for_result`. -/
def noResultText : String := "(无结果)"

/-- Final fallback once the grace re-read also has no root result:
`clean(collect_results)` if truthy, else the placeholder. -/
def collectFallback (v2 : BoardView) : String :=
  if v2.collected ≠ "" then cleanResult v2.collected else noResultText

/-- Terminal branch after the grace-period re-read `v2`. -/
def graceResult (tid : String) (v2 : BoardView) : String :=
  match lookupTask v2.data tid with
  | some rec => if rec.result ≠ "" then cleanResult rec.result
                else collectFallback v2
  | none => collectFallback v2

/-- Terminal branch of `_wait_for_result` once no task is active:
prefer the root task result from the current read `v`, then (after one
grace sleep) from the re-read `v2`, then the collected executor
results, then the placeholder. -/
def terminalResult (tid : String) (v v2 : BoardView) : String :=
  match lookupTask v.data tid with
  | some rec => if rec.result ≠ "" then cleanResult rec.result
                else graceResult tid v2
  | none => graceResult tid v2

/-- Outcome of the poll loop: the returned value (`none` is the
timeout) and the iteration indices at which a typing indicator was
sent. -/
structure WaitOut where
  result : Option String
  typingIters : List Nat
deriving DecidableEq, Repr

/-- The polling loop of `_wait_for_result`.  `i` is the number of
completed sleeps, `r` the index of the next board read, `statusSent`
and `acc` the typing bookkeeping.  The loop guard
`time.time() - start < TASK_TIMEOUT` with the fixed 2-second sleep
gives `TASK_TIMEOUT / POLL_INTERVAL` iterations, which is the fuel. -/
def waitAux (tid : String) (reads : Nat → BoardView) :
    Nat → Nat → Nat → Bool → List Nat → WaitOut
  | 0, _, _, _, acc => { result := none, typingIters := acc.reverse }
  | f + 1, i, r, statusSent, acc =>
    let v := reads r
    if v.data.isEmpty then
      waitAux tid reads f (i + 1) (r + 1) statusSent acc
    else if hasActive v.data then
      if !statusSent ∧ STATUS_INTERVAL < POLL_INTERVAL * (i + 1) then
        waitAux tid reads f (i + 1) (r + 1) true (i :: acc)
      else
        waitAux tid reads f (i + 1) (r + 1) statusSent acc
    else
      { result := some (terminalResult tid v (reads (r + 1))),
        typingIters := acc.reverse }

/-- `ChannelManager._wait_for_result` (manager.py). -/
def waitForResult (tid : String) (reads : Nat → BoardView) : WaitOut :=
  waitAux tid reads (TASK_TIMEOUT / POLL_INTERVAL) 0 0 false []

/-! ## The sequential processor
(`ChannelManager._task_processor` / `_process_message`)

The adapter is observed through its event log; `Orchestrator.submit`
(external) is a stubbed outcome; conversation history lives in
`memory/conversations` through `SessionStore.add_message` and
`SessionStore.format_history_for_prompt`, which the manager calls but
which are not part of the sources at hand — they are modelled from the
spec below.  Saving `.channel_session.json` (tool routing) has no
bearing on any claim and is not modelled. -/

/-- An adapter interaction, in order of occurrence. -/
inductive Event
  | typing (chat_id : String)
  | send (chat_id text : String)
deriving DecidableEq, Repr

/-- One conversation turn. -/
structure Turn where
  role : String
  content : String
deriving DecidableEq, Repr

/-- Per-session conversation history. -/
abbrev ConvData := List (String × List Turn)

/-- Modelled from the spec: `SessionStore.add_message` is called by the
manager but absent from the sources at hand; per §4.3 it appends the
message to the session's visible conversation record (an ordered list
of user/assistant turns keyed by session id). -/
def addMessage (conv : ConvData) (session_id role content : String) : ConvData :=
  match conv.find? (fun p => p.1 = session_id) with
  | some _ => conv.map (fun p =>
      if p.1 = session_id then (p.1, p.2 ++ [{ role := role, content := content }])
      else p)
  | none => conv ++ [(session_id, [{ role := role, content := content }])]

/-- History of one session (empty when unknown). -/
def lookupConv (conv : ConvData) (session_id : String) : List Turn :=
  match conv.find? (fun p => p.1 = session_id) with
  | some p => p.2
  | none => []

/-- Modelled from the spec: `SessionStore.format_history_for_prompt`
is called by the manager but absent from the sources at hand; per §4.3
it renders the last `maxTurns` turns, separated by a clear delimiter,
to be placed ahead of the new message text. -/
def formatHistoryForPrompt (conv : ConvData) (session_id : String)
    (maxTurns : Nat) : String :=
  let turns := (lookupConv conv session_id).reverse.take maxTurns |>.reverse
  String.intercalate "\n---\n" (turns.map (fun t => t.role ++ ": " ++ t.content))

/-- `PLATFORM_LIMITS.get(channel, 4096)` (manager.py). -/
def platformLimit (channel : String) : Nat :=
  if channel = "telegram" then 4096
  else if channel = "discord" then 2000
  else if channel = "feishu" then 10000
  else if channel = "slack" then 4000
  else 4096

/-- Stubbed externals of one processing cycle: the task id returned by
`Orchestrator.submit` (`none` = submission failure) and the TaskBoard
observations of the poll loop. -/
structure ProcEnv where
  submitted : Option String
  reads : Nat → BoardView

/-- Engine-visible state: the session store contents and the
conversation histories. -/
structure EngineState where
  store : SessionData
  conv : ConvData

/-- Queue-position notice text (manager.py `_task_processor`). -/
def queueNotice (queueSize : Nat) : String :=
  "⏳ 任务已排队 (前方还有 " ++ toString queueSize ++ " 个任务)..."

/-- Submission-failure notice (manager.py `_process_message`). -/
def submitFailText : String := "❌ 任务提交失败"

/-- Acknowledgement notice (manager.py `_process_message`). -/
def ackText : String := "🚀 任务已提交，正在处理..."

/-- Timeout notice (manager.py `_process_message`). -/
def timeoutText : String := "⏰ 任务超时，请稍后重试或简化请求"

/-- `ChannelManager._process_message` (manager.py): typing indicator,
record the user turn, submit (with history context), acknowledge, poll,
then either record the assistant turn and send the chunked result, or
send the timeout notice.  Returns the new state and the adapter events
of this cycle, in order. -/
def processMessage (env : ProcEnv) (now : Nat) (msg : ChannelMessage)
    (store1 : SessionData) (conv0 : ConvData) :
    EngineState × List Event :=
  let conv1 := addMessage conv0 msg.session_id "user" msg.text
  match env.submitted with
  | none =>
    (⟨store1, conv1⟩, [Event.typing msg.chat_id, Event.send msg.chat_id submitFailText])
  | some tid =>
    let store2 := updateTask store1 msg.session_id tid now
    let w := waitForResult tid env.reads
    let typingEvents := w.typingIters.map (fun _ => Event.typing msg.chat_id)
    match w.result with
    | some r =>
      if r ≠ "" then
        let conv2 := addMessage conv1 msg.session_id "assistant"
          (r.data.take 2000).asString
        let chunks := chunkMessageS r (platformLimit msg.channel)
        (⟨store2, conv2⟩,
          [Event.typing msg.chat_id, Event.send msg.chat_id ackText] ++
            typingEvents ++ chunks.map (Event.send msg.chat_id))
      else
        (⟨store2, conv1⟩,
          [Event.typing msg.chat_id, Event.send msg.chat_id ackText] ++
            typingEvents ++ [Event.send msg.chat_id timeoutText])
    | none =>
      (⟨store2, conv1⟩,
        [Event.typing msg.chat_id, Event.send msg.chat_id ackText] ++
          typingEvents ++ [Event.send msg.chat_id timeoutText])

/-- One iteration of `ChannelManager._task_processor` for a dequeued
message (adapter found): session touch via `get_or_create`, the
queue-position notice when other messages wait, then
`_process_message`. -/
def handleMessage (env : ProcEnv) (queueSize now : Nat) (msg : ChannelMessage)
    (st : EngineState) : EngineState × List Event :=
  let (_, store1) :=
    getOrCreate st.store msg.channel msg.chat_id msg.user_id msg.user_name now
  let notice := if 0 < queueSize
    then [Event.send msg.chat_id (queueNotice queueSize)] else []
  let (st2, evs) := processMessage env now msg store1 st.conv
  (st2, notice ++ evs)

/-! ## Health supervisor (`ChannelManager._health_monitor` and
`TelegramAdapter.reconnect`)

One adapter, viewed as an event-step system.  `pending` counts
reconnect coroutines that have been created (fire-and-forget
`asyncio.create_task(adapter.reconnect())`) and have not yet returned.
`reconnect` has no overlap guard in the source: its first actions set
`_running := False` and tear the app down, then it retries `_connect`
with backoff until success or an intentional stop. -/

/-- Observable adapter state for the supervisor model. -/
structure AdapterState where
  running : Bool
  netUp : Bool
  pending : Nat
  intentionalStop : Bool
deriving DecidableEq, Repr

/-- `TelegramAdapter.health_check` (telegram.py): false when
`_running` is unset or the network probe (`get_me`) fails. -/
def healthCheckA (a : AdapterState) : Bool := a.running && a.netUp

/-- Events of the supervisor/adapter system. -/
inductive SupEvent
  /-- The underlying connection dies (network probe starts failing). -/
  | netDrop
  /-- One supervisor tick visits this adapter: `health_check`, and on
  failure `asyncio.create_task(adapter.reconnect())` — one call per
  adapter per tick, with no check of any pending reconnect. -/
  | tick
  /-- A created reconnect coroutine starts executing: it sets
  `_running := False` and shuts the app down (no-op when nothing is
  pending or the stop was intentional). -/
  | reconBegin
  /-- A pending reconnect's `_connect` attempt succeeds: `_running`
  becomes true and that coroutine returns. -/
  | connectOk
  /-- A pending reconnect's `_connect` attempt fails: it sleeps and
  stays pending. -/
  | connectFail

/-- One step of the supervisor/adapter system. -/
def supStep (a : AdapterState) : SupEvent → AdapterState
  | .netDrop => { a with netUp := false }
  | .tick => if healthCheckA a then a else { a with pending := a.pending + 1 }
  | .reconBegin =>
    if 0 < a.pending ∧ ¬a.intentionalStop then { a with running := false } else a
  | .connectOk =>
    if 0 < a.pending then
      { a with running := true, netUp := true, pending := a.pending - 1 }
    else a
  | .connectFail => a

/-- Run the system over an event trace. -/
def supRun (a : AdapterState) (es : List SupEvent) : AdapterState :=
  es.foldl supStep a

/-- A healthy connected adapter with no pending reconnect. -/
def supInit : AdapterState :=
  { running := true, netUp := true, pending := 0, intentionalStop := false }

/-! ## Statement material -/

/-- `Rejoins text chunks`: the chunks, in order, reconstruct `text`
except for a (possibly empty) run of whitespace dropped at each split
boundary. -/
inductive Rejoins : List Char → List (List Char) → Prop
  | nil : Rejoins [] []
  | single (c : List Char) : Rejoins c [c]
  | cons (c w t2 : List Char) (cs : List (List Char)) :
      (∀ x ∈ w, pyWS x = true) → Rejoins t2 cs →
      Rejoins (c ++ (w ++ t2)) (c :: cs)

/-- A text on which every substitution of `_clean_result` has nothing
left to do: none of the removable markers occurs and stripping is a
no-op. -/
def cleanFixed (s : String) : Bool :=
  !hasSub "<!--".data s.data && !hasSub "<think>".data s.data &&
  !hasSub "```json".data s.data && !hasSub "\"task\"".data s.data &&
  !hasSub "\"role\"".data s.data && !hasSub "\n---\n".data s.data &&
  !hasSub "\n\n\n".data s.data && stripText s.data = s.data

/-- The first-message scenario: submission yields `"t1"`, and every
board read shows the single task `"t1"` finished with result
`"hi there"`. -/
def c1Env : ProcEnv :=
  { submitted := some "t1",
    reads := fun _ =>
      { data := [("t1", { status := "done", result := "hi there" })],
        collected := "" } }

/-- The message `"hello"` on Telegram chat `100`, normalized. -/
def c1Msg : ChannelMessage :=
  mkChannelMessage "telegram" "100" "u1" "Alice" "hello" "m1" "" false [] 0 ""

/-- Processing `c1Msg` from an empty store and empty history. -/
def c1Out : EngineState × List Event :=
  handleMessage c1Env 0 0 c1Msg ⟨[], []⟩

/-- A board whose finished root task carries a result that cleanup
strips to the empty string. -/
def c6Reads : Nat → BoardView := fun _ =>
  { data := [("t1", { status := "done", result := "\n---\n" })],
    collected := "" }

/-- A board whose finished root task carries the result `"hi there"`. -/
def c6ReadsW : Nat → BoardView := fun _ =>
  { data := [("t1", { status := "done", result := "hi there" })],
    collected := "" }

/-- A board that stays active for 17 polls and then finishes: long
enough for the 30-second status threshold to pass. -/
def c7Reads : Nat → BoardView := fun k =>
  if k < 17 then
    { data := [("t1", { status := "pending", result := "" })], collected := "" }
  else
    { data := [("t1", { status := "done", result := "ok" })], collected := "" }

/-- Supervisor trace: the connection drops, a tick spawns a reconnect,
the reconnect starts (tearing `_running` down) and its first attempt
fails, and the next tick arrives while it is still pending. -/
def c8Trace : List SupEvent :=
  [SupEvent.netDrop, SupEvent.tick, SupEvent.reconBegin,
   SupEvent.connectFail, SupEvent.tick]

/-- The record created by `get_or_create "telegram" "100" "u" "Alice"`
at time 5 on an empty store. -/
def c2Rec : ChannelSession :=
  { session_id := "telegram:100", channel := "telegram", chat_id := "100",
    user_ids := ["u"], user_names := ["Alice"], message_count := 1,
    last_task_id := "", last_active := 5, created_at := 5 }

/-- A stored record for the second-call scenario of `get_or_create`. -/
def c4Rec : ChannelSession :=
  { session_id := "t:c", channel := "t", chat_id := "c",
    user_ids := ["u1"], user_names := ["n1"], message_count := 1,
    last_task_id := "", last_active := 1, created_at := 1 }

/-- A one-session store holding `c4Rec`. -/
def c4Data : SessionData := [("t:c", c4Rec)]

/-! ## Store helper lemmas -/

theorem lookupSession_mem {data : SessionData} {k : String} {s : ChannelSession}
    (h : lookupSession data k = some s) : (k, s) ∈ data := by
  unfold lookupSession at h
  rcases Option.map_eq_some'.mp h with ⟨p, hp, hps⟩
  have hk : p.1 = k := by
    have := List.find?_some hp
    simpa using this
  have hmem := List.mem_of_find?_eq_some hp
  have : p = (k, s) := by
    cases p; simp_all
  rwa [this] at hmem

theorem touchSession_session_id (s : ChannelSession) (u n : String) (t : Nat) :
    (touchSession s u n t).session_id = s.session_id := by
  simp only [touchSession]
  split <;> split <;> rfl

theorem touchSession_channel (s : ChannelSession) (u n : String) (t : Nat) :
    (touchSession s u n t).channel = s.channel := by
  simp only [touchSession]
  split <;> split <;> rfl

theorem touchSession_chat_id (s : ChannelSession) (u n : String) (t : Nat) :
    (touchSession s u n t).chat_id = s.chat_id := by
  simp only [touchSession]
  split <;> split <;> rfl

theorem touchSession_message_count (s : ChannelSession) (u n : String) (t : Nat) :
    (touchSession s u n t).message_count = s.message_count + 1 := by
  simp only [touchSession]
  split <;> split <;> rfl

theorem touchSession_user_ids (s : ChannelSession) (u n : String) (t : Nat) :
    (touchSession s u n t).user_ids =
      if u ≠ "" ∧ u ∉ s.user_ids then s.user_ids ++ [u] else s.user_ids := by
  simp only [touchSession]
  split <;> split <;> simp_all

theorem touchSession_user_names (s : ChannelSession) (u n : String) (t : Nat) :
    (touchSession s u n t).user_names =
      if n ≠ "" ∧ n ∉ s.user_names then s.user_names ++ [n] else s.user_names := by
  simp only [touchSession]
  split <;> split <;> simp_all

theorem getOrCreate_found {data : SessionData} {ch cid : String}
    {s : ChannelSession} (h : lookupSession data (ch ++ ":" ++ cid) = some s)
    (uid uname : String) (now : Nat) :
    getOrCreate data ch cid uid uname now =
      (touchSession s uid uname now,
        setAssoc data (ch ++ ":" ++ cid) (touchSession s uid uname now)) := by
  unfold getOrCreate
  simp [h]

theorem getOrCreate_new {data : SessionData} {ch cid : String}
    (h : lookupSession data (ch ++ ":" ++ cid) = none)
    (uid uname : String) (now : Nat) :
    getOrCreate data ch cid uid uname now =
      (freshSession (ch ++ ":" ++ cid) ch cid uid uname now,
        data ++ [(ch ++ ":" ++ cid,
          freshSession (ch ++ ":" ++ cid) ch cid uid uname now)]) := by
  unfold getOrCreate
  simp [h]

/-- The session-id coherence the store maintains for every record it
ever writes: the record's `session_id` equals its key and equals
`channel ++ ":" ++ chat_id` of the record itself. -/
def SessionIdInv (data : SessionData) : Prop :=
  ∀ p ∈ data, p.2.session_id = p.1 ∧
    p.2.session_id = p.2.channel ++ ":" ++ p.2.chat_id

theorem sessionIdInv_getOrCreate {data : SessionData}
    (hinv : SessionIdInv data) (ch cid uid uname : String) (now : Nat) :
    SessionIdInv (getOrCreate data ch cid uid uname now).2 := by
  cases h : lookupSession data (ch ++ ":" ++ cid) with
  | some s =>
    have hs := hinv _ (lookupSession_mem h)
    have hs1 : s.session_id = ch ++ ":" ++ cid := hs.1
    have hs2 : s.session_id = s.channel ++ ":" ++ s.chat_id := hs.2
    rw [getOrCreate_found h]
    intro p hp
    simp only [setAssoc, List.mem_map] at hp
    rcases hp with ⟨q, hq, hpq⟩
    by_cases hqk : q.1 = ch ++ ":" ++ cid
    · rw [if_pos hqk] at hpq
      subst hpq
      refine ⟨?_, ?_⟩
      · simpa [touchSession_session_id] using hs1
      · simpa [touchSession_session_id, touchSession_channel,
          touchSession_chat_id] using hs2
    · rw [if_neg hqk] at hpq
      subst hpq
      exact hinv q hq
  | none =>
    rw [getOrCreate_new h]
    intro p hp
    rcases List.mem_append.mp hp with hold | hnew
    · exact hinv p hold
    · simp only [List.mem_singleton] at hnew
      subst hnew
      exact ⟨rfl, rfl⟩

theorem sessionIdInv_updateTask {data : SessionData}
    (hinv : SessionIdInv data) (sid tid : String) (now : Nat) :
    SessionIdInv (updateTask data sid tid now) := by
  unfold updateTask
  cases h : lookupSession data sid with
  | some s =>
    have hs := hinv _ (lookupSession_mem h)
    have hs1 : s.session_id = sid := hs.1
    have hs2 : s.session_id = s.channel ++ ":" ++ s.chat_id := hs.2
    intro p hp
    simp only [setAssoc, List.mem_map] at hp
    rcases hp with ⟨q, hq, hpq⟩
    by_cases hqk : q.1 = sid
    · rw [if_pos hqk] at hpq
      subst hpq
      exact ⟨hs1, hs2⟩
    · rw [if_neg hqk] at hpq
      subst hpq
      exact hinv q hq
  | none => exact hinv

theorem sessionIdInv_runOp {data : SessionData} (hinv : SessionIdInv data)
    (op : StoreOp) : SessionIdInv (runOp data op) := by
  cases op with
  | getOrCreate ch cid uid uname now =>
    exact sessionIdInv_getOrCreate hinv ch cid uid uname now
  | updateTask sid tid now => exact sessionIdInv_updateTask hinv sid tid now

theorem sessionIdInv_foldl (ops : List StoreOp) :
    ∀ data : SessionData, SessionIdInv data →
      SessionIdInv (ops.foldl runOp data) := by
  induction ops with
  | nil => intro data h; exact h
  | cons op ops ih =>
    intro data h
    exact ih _ (sessionIdInv_runOp h op)

/-- C2: every normalized message built as the adapters build them (the
`session_id` dataclass field left at its `""` default, as at every
construction site in the repository) satisfies
`session_id = channel ++ ":" ++ chat_id` after `__post_init__`, and
every record the session store ever writes through its own interface
satisfies the same identity, both against its key and against its own
channel/chat fields. -/
theorem C2_session_id_invariant :
    (∀ channel chat_id user_id user_name text message_id reply_to is_group
        attachments timestamp,
      (mkChannelMessage channel chat_id user_id user_name text message_id
        reply_to is_group attachments timestamp "").session_id =
        channel ++ ":" ++ chat_id) ∧
    (∀ ops : List StoreOp, ∀ p ∈ runOps ops,
      p.2.session_id = p.1 ∧
        p.2.session_id = p.2.channel ++ ":" ++ p.2.chat_id) := by
  constructor
  · intro channel chat_id _ _ _ _ _ _ _ _
    simp [mkChannelMessage]
  · intro ops
    exact sessionIdInv_foldl ops [] (by intro p hp; simp at hp)

/-- Witness for `C2_session_id_invariant`: one concrete message and the
record that one concrete `get_or_create` history writes. -/
theorem C2_session_id_invariant_witness :
    (mkChannelMessage "telegram" "100" "u" "Alice" "hi" "m" "" false [] 0
        "").session_id = "telegram:100" ∧
    (c2Rec.session_id = "telegram:100" ∧
      c2Rec.session_id = c2Rec.channel ++ ":" ++ c2Rec.chat_id) :=
  ⟨C2_session_id_invariant.1 "telegram" "100" "u" "Alice" "hi" "m" "" false [] 0,
   C2_session_id_invariant.2 [StoreOp.getOrCreate "telegram" "100" "u" "Alice" 5]
     ("telegram:100", c2Rec) (by decide)⟩

/-- C4: on an existing session, `get_or_create` appends an unseen
non-empty user id / user name exactly once (set semantics, never
introducing a duplicate) and bumps `message_count` by exactly 1; the
creating call yields `message_count = 1`. -/
theorem C4_get_or_create_accumulates :
    (∀ (data : SessionData) (ch cid uid uname : String) (now : Nat),
      lookupSession data (ch ++ ":" ++ cid) = none →
        (getOrCreate data ch cid uid uname now).1.message_count = 1) ∧
    (∀ (data : SessionData) (ch cid uid uname : String) (now : Nat)
        (s : ChannelSession),
      lookupSession data (ch ++ ":" ++ cid) = some s →
        (getOrCreate data ch cid uid uname now).1.message_count =
            s.message_count + 1 ∧
          (uid ≠ "" → uid ∉ s.user_ids →
            (getOrCreate data ch cid uid uname now).1.user_ids =
              s.user_ids ++ [uid]) ∧
          (uid ∈ s.user_ids →
            (getOrCreate data ch cid uid uname now).1.user_ids =
              s.user_ids) ∧
          (uname ≠ "" → uname ∉ s.user_names →
            (getOrCreate data ch cid uid uname now).1.user_names =
              s.user_names ++ [uname]) ∧
          (uname ∈ s.user_names →
            (getOrCreate data ch cid uid uname now).1.user_names =
              s.user_names) ∧
          (s.user_ids.Nodup →
            (getOrCreate data ch cid uid uname now).1.user_ids.Nodup) ∧
          (s.user_names.Nodup →
            (getOrCreate data ch cid uid uname now).1.user_names.Nodup)) := by
  constructor
  · intro data ch cid uid uname now h
    rw [getOrCreate_new h]
    rfl
  · intro data ch cid uid uname now s h
    rw [getOrCreate_found h]
    refine ⟨touchSession_message_count s uid uname now, ?_, ?_, ?_, ?_, ?_, ?_⟩
    · intro h1 h2
      rw [touchSession_user_ids, if_pos ⟨h1, h2⟩]
    · intro hmem
      rw [touchSession_user_ids, if_neg (by intro hc; exact hc.2 hmem)]
    · intro h1 h2
      rw [touchSession_user_names, if_pos ⟨h1, h2⟩]
    · intro hmem
      rw [touchSession_user_names, if_neg (by intro hc; exact hc.2 hmem)]
    · intro hnd
      rw [touchSession_user_ids]
      split
      · rename_i hc
        simp [List.nodup_append, hnd, hc.2]
      · exact hnd
    · intro hnd
      rw [touchSession_user_names]
      split
      · rename_i hc
        simp [List.nodup_append, hnd, hc.2]
      · exact hnd

/-- Witness for `C4_get_or_create_accumulates`: the second call on the
stored session `c4Rec` with the fresh user `u2 / n2` at time 7. -/
theorem C4_get_or_create_accumulates_witness :
    lookupSession c4Data "t:c" = some c4Rec ∧
    (getOrCreate c4Data "t" "c" "u2" "n2" 7).1.message_count =
        c4Rec.message_count + 1 ∧
    (getOrCreate c4Data "t" "c" "u2" "n2" 7).1.user_ids =
        c4Rec.user_ids ++ ["u2"] ∧
    (getOrCreate c4Data "t" "c" "u2" "n2" 7).1.user_names =
        c4Rec.user_names ++ ["n2"] ∧
    (getOrCreate c4Data "t" "c" "u2" "n2" 7).1.user_ids.Nodup :=
  ⟨by decide,
   (C4_get_or_create_accumulates.2 c4Data "t" "c" "u2" "n2" 7 c4Rec
      (by decide)).1,
   (C4_get_or_create_accumulates.2 c4Data "t" "c" "u2" "n2" 7 c4Rec
      (by decide)).2.1 (by decide) (by decide),
   (C4_get_or_create_accumulates.2 c4Data "t" "c" "u2" "n2" 7 c4Rec
      (by decide)).2.2.2.1 (by decide) (by decide),
   (C4_get_or_create_accumulates.2 c4Data "t" "c" "u2" "n2" 7 c4Rec
      (by decide)).2.2.2.2.2.1 (by decide)⟩

/-- C9: `update_task` on a session id that is not in the store leaves
the persisted mapping unchanged (and, being a total function of the
model, raises nothing). -/
theorem C9_update_task_unknown_noop (data : SessionData) (sid tid : String)
    (now : Nat) (h : lookupSession data sid = none) :
    updateTask data sid tid now = data := by
  unfold updateTask
  rw [h]

/-- Witness for `C9_update_task_unknown_noop` on a concrete store. -/
theorem C9_update_task_unknown_noop_witness :
    lookupSession c4Data "telegram:404" = none ∧
      updateTask c4Data "telegram:404" "t9" 5 = c4Data :=
  ⟨by decide, C9_update_task_unknown_noop c4Data "telegram:404" "t9" 5 (by decide)⟩

/-- C10: a missing backing file (`FileNotFoundError`) and a corrupt one
(`json.JSONDecodeError`) are both caught by `_read` and yield the empty
mapping, so `get_all_sessions` and `get_active_sessions` return empty
lists instead of failing, and `get_or_create` behaves exactly as on an
empty store — a corrupt file silently resets all sessions. -/
theorem C10_corrupt_file_reads_empty (now maxAge t : Nat)
    (ch cid uid uname : String) :
    readStore StoreFile.missing = [] ∧
    readStore StoreFile.corrupt = [] ∧
    getAllSessions StoreFile.missing = [] ∧
    getAllSessions StoreFile.corrupt = [] ∧
    getActiveSessions StoreFile.missing now maxAge = [] ∧
    getActiveSessions StoreFile.corrupt now maxAge = [] ∧
    getOrCreate (readStore StoreFile.corrupt) ch cid uid uname t =
      getOrCreate [] ch cid uid uname t :=
  ⟨rfl, rfl, rfl, rfl, rfl, rfl, rfl⟩

set_option maxRecDepth 2000 in
/-- C1: the first message `"hello"` on the unknown session
`telegram:100`, with submission returning `"t1"` and the first poll
finding no active task and the result `"hi there"` on `"t1"`: a new
session is created with `message_count = 1`, the conversation history
gains the assistant turn `"hi there"`, and `send_message("100",
"hi there")` happens exactly once. -/
theorem C1_first_message_flow :
    (lookupSession c1Out.1.store "telegram:100").map
        (fun s => s.message_count) = some 1 ∧
    lookupConv c1Out.1.conv "telegram:100" =
      [{ role := "user", content := "hello" },
       { role := "assistant", content := "hi there" }] ∧
    (c1Out.2.filter (fun e => e = Event.send "100" "hi there")).length = 1 := by
  decide

/-- C8 counterexample: after the trace `c8Trace` — connection drop,
supervisor tick, reconnect start, failed first attempt, next tick —
two reconnects for the same adapter are pending at once, so a tick does
start a reconnect while an earlier one is still pending. -/
theorem C8_overlapping_reconnects_counterexample :
    (supRun supInit c8Trace).pending = 2 := by
  decide

/-- C8 (amended): one supervisor tick invokes `reconnect` for an
adapter at most once (`pending` grows by at most one per tick), and
only when `health_check` reported failure; overlap across ticks is not
prevented. -/
theorem C8_tick_at_most_one_reconnect (a : AdapterState) :
    (supStep a SupEvent.tick).pending ≤ a.pending + 1 ∧
    (healthCheckA a = true → supStep a SupEvent.tick = a) := by
  constructor
  · simp only [supStep]
    split
    · exact Nat.le_succ _
    · exact Nat.le_refl _
  · intro h
    simp only [supStep]
    rw [if_pos h]

/-- Witness for `C8_tick_at_most_one_reconnect` at the initial healthy
adapter state. -/
theorem C8_tick_at_most_one_reconnect_witness :
    (supStep supInit SupEvent.tick).pending ≤ supInit.pending + 1 ∧
      supStep supInit SupEvent.tick = supInit :=
  ⟨(C8_tick_at_most_one_reconnect supInit).1,
   (C8_tick_at_most_one_reconnect supInit).2 (by decide)⟩

/-! ## Poll-loop lemmas -/

theorem waitAux_typing_bound (tid : String) (reads : Nat → BoardView) :
    ∀ (f i r : Nat) (ss : Bool) (acc : List Nat),
      ((waitAux tid reads f i r ss acc).typingIters.length ≤
        acc.length + (if ss then 0 else 1)) ∧
      (∀ j ∈ (waitAux tid reads f i r ss acc).typingIters,
        j ∈ acc ∨ STATUS_INTERVAL < POLL_INTERVAL * (j + 1)) := by
  intro f
  induction f with
  | zero =>
    intro i r ss acc
    refine ⟨?_, ?_⟩
    · simp only [waitAux, List.length_reverse]
      exact Nat.le_add_right _ _
    · intro j hj
      simp only [waitAux, List.mem_reverse] at hj
      exact Or.inl hj
  | succ f ih =>
    intro i r ss acc
    simp only [waitAux]
    split
    · exact ih (i + 1) (r + 1) ss acc
    · split
      · split
        · rename_i hcond
          refine ⟨?_, ?_⟩
          · have hss : ss = false := by
              rcases hcond with ⟨h1, _⟩
              simpa using h1
            have := (ih (i + 1) (r + 1) true (i :: acc)).1
            simp only [List.length_cons, if_pos rfl] at this ⊢
            subst hss
            simpa using this
          · intro j hj
            rcases (ih (i + 1) (r + 1) true (i :: acc)).2 j hj with hacc | hthr
            · rcases List.mem_cons.mp hacc with hji | hja
              · subst hji
                exact Or.inr hcond.2
              · exact Or.inl hja
            · exact Or.inr hthr
        · exact ih (i + 1) (r + 1) ss acc
      · refine ⟨?_, ?_⟩
        · simp only [List.length_reverse]
          exact Nat.le_add_right _ _
        · intro j hj
          simp only [List.mem_reverse] at hj
          exact Or.inl hj

/-- C7: over any sequence of board observations, the poll loop sends
the "still working" typing indicator at most once per task, and only at
an iteration whose elapsed time exceeds the 30-second threshold
(`statusSent` is set with the first send and never cleared). -/
theorem C7_typing_at_most_once (tid : String) (reads : Nat → BoardView) :
    (waitForResult tid reads).typingIters.length ≤ 1 ∧
    ∀ i ∈ (waitForResult tid reads).typingIters,
      STATUS_INTERVAL < POLL_INTERVAL * (i + 1) := by
  have h := waitAux_typing_bound tid reads (TASK_TIMEOUT / POLL_INTERVAL) 0 0
    false []
  refine ⟨?_, ?_⟩
  · simpa [waitForResult] using h.1
  · intro i hi
    rcases h.2 i hi with hacc | hthr
    · simp at hacc
    · exact hthr

/-- Witness for `C7_typing_at_most_once`: a run that stays active past
the threshold, sends exactly one indicator (at iteration 15, elapsed 32
seconds), and then completes. -/
theorem C7_typing_at_most_once_witness :
    (waitForResult "t1" c7Reads).typingIters.length ≤ 1 ∧
      ∀ i ∈ (waitForResult "t1" c7Reads).typingIters,
        STATUS_INTERVAL < POLL_INTERVAL * (i + 1) :=
  C7_typing_at_most_once "t1" c7Reads

theorem collectFallback_shape (v2 : BoardView) :
    collectFallback v2 = noResultText ∨
      ∃ raw, raw ≠ "" ∧ collectFallback v2 = cleanResult raw := by
  unfold collectFallback
  split
  · rename_i hc
    exact Or.inr ⟨v2.collected, hc, rfl⟩
  · exact Or.inl rfl

theorem graceResult_shape (tid : String) (v2 : BoardView) :
    graceResult tid v2 = noResultText ∨
      ∃ raw, raw ≠ "" ∧ graceResult tid v2 = cleanResult raw := by
  cases h2 : lookupTask v2.data tid with
  | some rec =>
    simp only [graceResult, h2]
    split
    · rename_i hc
      exact Or.inr ⟨rec.result, hc, rfl⟩
    · exact collectFallback_shape v2
  | none =>
    simp only [graceResult, h2]
    exact collectFallback_shape v2

theorem terminalResult_shape (tid : String) (v v2 : BoardView) :
    terminalResult tid v v2 = noResultText ∨
      ∃ raw, raw ≠ "" ∧ terminalResult tid v v2 = cleanResult raw := by
  cases h1 : lookupTask v.data tid with
  | some rec =>
    simp only [terminalResult, h1]
    split
    · rename_i hc
      exact Or.inr ⟨rec.result, hc, rfl⟩
    · exact graceResult_shape tid v2
  | none =>
    simp only [terminalResult, h1]
    exact graceResult_shape tid v2

theorem waitAux_result_shape (tid : String) (reads : Nat → BoardView) :
    ∀ (f i r : Nat) (ss : Bool) (acc : List Nat) (res : String),
      (waitAux tid reads f i r ss acc).result = some res →
        res = noResultText ∨ ∃ raw, raw ≠ "" ∧ res = cleanResult raw := by
  intro f
  induction f with
  | zero =>
    intro i r ss acc res h
    simp [waitAux] at h
  | succ f ih =>
    intro i r ss acc res h
    simp only [waitAux] at h
    split at h
    · exact ih _ _ _ _ _ h
    · split at h
      · split at h
        · exact ih _ _ _ _ _ h
        · exact ih _ _ _ _ _ h
      · simp only [Option.some.injEq] at h
        subst h
        exact terminalResult_shape tid _ _

/-- C6 counterexample: a finished root task whose recorded raw result
is `"\n---\n"` (non-empty, so the poll loop takes the first terminal
branch) is cleaned to the empty string, which the loop returns for
delivery — refuting "never the empty string". -/
theorem C6_terminal_empty_counterexample :
    (waitForResult "t1" c6Reads).result = some "" := by
  decide

/-- C6 (amended): once the poll loop observes that no task is active,
the value it returns is either the explicit `(无结果)` placeholder or
the cleanup of some non-empty raw text (the root task's recorded
result, the grace-period re-read, or the aggregated subordinate
results); it is therefore non-empty except when cleanup strips that
non-empty raw text to the empty string. -/
theorem C6_terminal_result_shape (tid : String) (reads : Nat → BoardView)
    (res : String) (h : (waitForResult tid reads).result = some res) :
    res = noResultText ∨ ∃ raw, raw ≠ "" ∧ res = cleanResult raw :=
  waitAux_result_shape tid reads (TASK_TIMEOUT / POLL_INTERVAL) 0 0 false []
    res h

/-- Witness for `C6_terminal_result_shape` on a run that delivers
`"hi there"`. -/
theorem C6_terminal_result_shape_witness :
    (waitForResult "t1" c6ReadsW).result = some "hi there" ∧
      ("hi there" = noResultText ∨
        ∃ raw, raw ≠ "" ∧ "hi there" = cleanResult raw) :=
  ⟨by decide, C6_terminal_result_shape "t1" c6ReadsW "hi there" (by decide)⟩

/-! ## Cleanup fixed-point lemmas -/

theorem substAux_eq_of_none {m : List Char → Option (List Char)}
    {repl : List Char} :
    ∀ (f : Nat) (s : List Char), (∀ t, t <:+ s → m t = none) →
      substAux m repl f s = s := by
  intro f
  induction f with
  | zero => intro s _; rfl
  | succ f ih =>
    intro s h
    cases s with
    | nil => rfl
    | cons c cs =>
      simp only [substAux, h (c :: cs) List.suffix_rfl]
      exact congrArg (c :: ·)
        (ih cs (fun t ht => h t (ht.trans (List.suffix_cons c cs))))

theorem hasSub_false_at {sub : List Char} :
    ∀ {s : List Char}, hasSub sub s = false →
      ∀ t, t <:+ s → afterLit sub t = none := by
  intro s
  induction s with
  | nil =>
    intro h t ht
    rw [List.suffix_nil.mp ht]
    simp only [hasSub] at h
    cases ha : afterLit sub [] with
    | none => rfl
    | some r => rw [ha] at h; simp at h
  | cons c cs ih =>
    intro h t ht
    simp only [hasSub, Bool.or_eq_false_iff] at h
    rcases List.suffix_cons_iff.mp ht with rfl | htcs
    · cases ha : afterLit sub (c :: cs) with
      | none => rfl
      | some r => rw [ha] at h; simp at h
    · exact ih h.2 t htcs

theorem afterLit_suffix {lit : List Char} :
    ∀ {s r : List Char}, afterLit lit s = some r → r <:+ s := by
  induction lit with
  | nil =>
    intro s r h
    simp only [afterLit, Option.some.injEq] at h
    subst h
    exact List.suffix_rfl
  | cons a la ih =>
    intro s r h
    cases s with
    | nil => simp [afterLit] at h
    | cons b bs =>
      simp only [afterLit] at h
      split at h
      · exact (ih h).trans (List.suffix_cons b bs)
      · simp at h

theorem matchAgent_none {t : List Char} (h : afterLit "<!--".data t = none) :
    matchAgent t = none := by
  simp only [matchAgent, h]

theorem matchThink_none {t : List Char}
    (h : afterLit "<think>".data t = none) : matchThink t = none := by
  simp only [matchThink, h]

theorem matchJson1_none {t : List Char}
    (h : afterLit "```json".data t = none) : matchJson1 t = none := by
  simp only [matchJson1, h]

theorem matchSep_none {t : List Char}
    (h : afterLit "\n---\n".data t = none) : matchSep t = none := h

theorem matchNL3_none : ∀ {t : List Char},
    afterLit "\n\n\n".data t = none → matchNL3 t = none := by
  have hdata : "\n\n\n".data = ['\n', '\n', '\n'] := rfl
  intro t h
  match t with
  | [] => rfl
  | [c1] => rfl
  | [c1, c2] => rfl
  | c1 :: c2 :: c3 :: r =>
    simp only [matchNL3]
    rw [if_neg]
    rintro ⟨rfl, rfl, rfl⟩
    rw [hdata] at h
    simp [afterLit] at h

theorem kwAt_none {t : List Char} (h1 : afterLit "\"task\"".data t = none)
    (h2 : afterLit "\"role\"".data t = none) : kwAt t = none := by
  simp only [kwAt, h1, h2]

theorem json2From_none : ∀ {s : List Char},
    (∀ t, t <:+ s → kwAt t = none) → json2From s = none := by
  intro s
  induction s with
  | nil => intro _; rfl
  | cons c cs ih =>
    intro h
    have hdeep : (if c = '}' then none else json2From cs) = none := by
      split
      · rfl
      · exact ih (fun t ht => h t (ht.trans (List.suffix_cons c cs)))
    simp only [json2From, hdeep, h (c :: cs) List.suffix_rfl]

theorem matchJson2_none {t : List Char}
    (h : ∀ u, u <:+ t → kwAt u = none) : matchJson2 t = none := by
  cases ha : afterLit "[".data (dropWS t) with
  | none => simp only [matchJson2, ha]
  | some r1 =>
    have hr1 : r1 <:+ t :=
      (afterLit_suffix ha).trans (List.dropWhile_suffix _)
    cases hb : afterLit "\x7b".data (dropWS r1) with
    | none => simp only [matchJson2, ha, hb]
    | some r2 =>
      have hr2 : r2 <:+ t :=
        (((afterLit_suffix hb).trans (List.dropWhile_suffix _)).trans hr1)
      simp only [matchJson2, ha, hb]
      exact json2From_none (fun u hu => h u (hu.trans hr2))

theorem subst2Aux_eq_of_none :
    ∀ (f : Nat) (ls : Bool) (s : List Char),
      (∀ t, t <:+ s → matchJson2 t = none) → subst2Aux f ls s = s := by
  intro f
  induction f with
  | zero => intro ls s _; rfl
  | succ f ih =>
    intro ls s h
    cases s with
    | nil => rfl
    | cons c cs =>
      have hm : (if ls then matchJson2 (c :: cs) else none) = none := by
        split
        · exact h (c :: cs) List.suffix_rfl
        · rfl
      simp only [subst2Aux, hm]
      exact congrArg (c :: ·)
        (ih _ cs (fun t ht => h t (ht.trans (List.suffix_cons c cs))))

/-- On a text free of every removable marker and already stripped,
`_clean_result` is the identity. -/
theorem cleanResult_fixed {s : String} (h : cleanFixed s = true) :
    cleanResult s = s := by
  unfold cleanFixed at h
  simp only [Bool.and_eq_true, Bool.not_eq_true', decide_eq_true_eq] at h
  obtain ⟨⟨⟨⟨⟨⟨⟨h1, h2⟩, h3⟩, h4⟩, h5⟩, h6⟩, h7⟩, h8⟩ := h
  have e1 : subst matchAgent [] s.data = s.data :=
    substAux_eq_of_none _ _
      (fun t ht => matchAgent_none (hasSub_false_at h1 t ht))
  have e2 : subst matchThink [] s.data = s.data :=
    substAux_eq_of_none _ _
      (fun t ht => matchThink_none (hasSub_false_at h2 t ht))
  have e3 : subst matchJson1 [] s.data = s.data :=
    substAux_eq_of_none _ _
      (fun t ht => matchJson1_none (hasSub_false_at h3 t ht))
  have e4 : subst2 s.data = s.data :=
    subst2Aux_eq_of_none _ _ _
      (fun t ht => matchJson2_none (fun u hu =>
        kwAt_none (hasSub_false_at h4 u (hu.trans ht))
          (hasSub_false_at h5 u (hu.trans ht))))
  have e5 : subst matchSep "\n\n".data s.data = s.data :=
    substAux_eq_of_none _ _
      (fun t ht => matchSep_none (hasSub_false_at h6 t ht))
  have e6 : subst matchNL3 "\n\n".data s.data = s.data :=
    substAux_eq_of_none _ _
      (fun t ht => matchNL3_none (hasSub_false_at h7 t ht))
  simp only [cleanResult, e1, e2, e3, e4, e5, e6, h8]
  rfl

/-- C5 counterexample: cleanup is not idempotent.  On
`"a\n---\n---\nb"` the separator substitution removes only the first
(overlapping) `\n---\n`, leaving `"a\n\n---\nb"`, which a second
application reduces further to `"a\n\nb"`. -/
theorem C5_clean_not_idempotent_counterexample :
    cleanResult (cleanResult "a\n---\n---\nb") ≠
      cleanResult "a\n---\n---\nb" := by
  decide

/-- C5 (amended): cleanup is idempotent on every input whose once-
cleaned text is free of the removable patterns (agent comments, think
tags, the two JSON-delegation shapes, separator lines, triple blank
lines) and of surrounding whitespace; in general a single pass can
leave a freshly exposed pattern behind (see the counterexample), so
idempotence does not hold unconditionally. -/
theorem C5_clean_idempotent_when_fixed (t : String)
    (h : cleanFixed (cleanResult t) = true) :
    cleanResult (cleanResult t) = cleanResult t :=
  cleanResult_fixed h

/-- Witness for `C5_clean_idempotent_when_fixed` at `"hello"`. -/
theorem C5_clean_idempotent_when_fixed_witness :
    cleanFixed (cleanResult "hello") = true ∧
      cleanResult (cleanResult "hello") = cleanResult "hello" :=
  ⟨by decide, C5_clean_idempotent_when_fixed "hello" (by decide)⟩

/-! ## Chunking lemmas -/

theorem posGuard_some {o : Option Nat} {i : Nat} (h : posGuard o = some i) :
    o = some i ∧ 0 < i := by
  cases o with
  | none => simp [posGuard] at h
  | some j =>
    simp only [posGuard, Option.some_bind] at h
    split at h
    · cases h
      exact ⟨rfl, by assumption⟩
    · cases h

theorem rfindSub_some {sub s : List Char} {e i : Nat}
    (h : rfindSub sub s e = some i) :
    i + sub.length ≤ min e s.length := by
  unfold rfindSub at h
  have hmem := List.mem_of_find?_eq_some h
  simp only [List.mem_reverse, List.mem_range] at hmem
  omega

theorem splitPos_le {s : List Char} {M : Nat} :
    splitPos s M ≤ M := by
  have hmin : min M s.length ≤ M := Nat.min_le_left _ _
  unfold splitPos
  cases h1 : posGuard (rfindSub "\n\n".data s M) with
  | some i =>
    rcases posGuard_some h1 with ⟨hr, _⟩
    have hb := rfindSub_some hr
    have hl : ("\n\n".data).length = 2 := rfl
    show i ≤ M
    omega
  | none =>
    cases h2 : posGuard (rfindSub "\n".data s M) with
    | some i =>
      rcases posGuard_some h2 with ⟨hr, _⟩
      have hb := rfindSub_some hr
      have hl : ("\n".data).length = 1 := rfl
      show i ≤ M
      omega
    | none =>
      cases h3 : posGuard (rfindSub " ".data s M) with
      | some i =>
        rcases posGuard_some h3 with ⟨hr, _⟩
        have hb := rfindSub_some hr
        have hl : (" ".data).length = 1 := rfl
        show i ≤ M
        omega
      | none => exact Nat.le_refl M

theorem splitPos_pos {s : List Char} {M : Nat} (hM : 0 < M) :
    0 < splitPos s M := by
  unfold splitPos
  cases h1 : posGuard (rfindSub "\n\n".data s M) with
  | some i => exact (posGuard_some h1).2
  | none =>
    cases h2 : posGuard (rfindSub "\n".data s M) with
    | some i => exact (posGuard_some h2).2
    | none =>
      cases h3 : posGuard (rfindSub " ".data s M) with
      | some i => exact (posGuard_some h3).2
      | none => exact hM

theorem chunkLoop_length_le {M : Nat} (_hM : 0 < M) :
    ∀ (f : Nat) (s : List Char), ∀ c ∈ chunkLoop M f s, c.length ≤ M := by
  intro f
  induction f with
  | zero =>
    intro s c hc
    cases s <;> simp [chunkLoop] at hc
  | succ f ih =>
    intro s c hc
    cases s with
    | nil => simp [chunkLoop] at hc
    | cons a as =>
      simp only [chunkLoop] at hc
      split at hc
      · rename_i hle
        simp only [List.mem_singleton] at hc
        subst hc
        exact hle
      · rcases List.mem_cons.mp hc with rfl | hc2
        · have hsp := splitPos_le (s := a :: as) (M := M)
          have : ((a :: as).take (splitPos (a :: as) M)).length ≤
              splitPos (a :: as) M := by
            simp [List.length_take]
          omega
        · exact ih _ c hc2

theorem chunkLoop_rejoins {M : Nat} (hM : 0 < M) :
    ∀ (f : Nat) (s : List Char), s.length ≤ f →
      Rejoins s (chunkLoop M f s) := by
  intro f
  induction f with
  | zero =>
    intro s hs
    have hnil : s = [] := List.eq_nil_of_length_eq_zero (Nat.le_zero.mp hs)
    subst hnil
    exact Rejoins.nil
  | succ f ih =>
    intro s hs
    cases s with
    | nil => exact Rejoins.nil
    | cons a as =>
      simp only [chunkLoop]
      split
      · exact Rejoins.single _
      · rename_i hgt
        have hgt' : M < (a :: as).length := Nat.not_le.mp hgt
        have hsp1 : 0 < splitPos (a :: as) M := splitPos_pos hM
        have hlen : (lstrip ((a :: as).drop (splitPos (a :: as) M))).length ≤ f := by
          have h1 : (lstrip ((a :: as).drop (splitPos (a :: as) M))).length ≤
              ((a :: as).drop (splitPos (a :: as) M)).length :=
            (List.dropWhile_sublist _).length_le
          have h2 : ((a :: as).drop (splitPos (a :: as) M)).length =
              (a :: as).length - splitPos (a :: as) M := List.length_drop _ _
          have h3 : (a :: as).length ≤ f + 1 := hs
          omega
        have hws : ∀ x ∈ ((a :: as).drop (splitPos (a :: as) M)).takeWhile pyWS,
            pyWS x = true := fun x hx => List.mem_takeWhile_imp hx
        have hr := Rejoins.cons ((a :: as).take (splitPos (a :: as) M))
          (((a :: as).drop (splitPos (a :: as) M)).takeWhile pyWS)
          (lstrip ((a :: as).drop (splitPos (a :: as) M)))
          (chunkLoop M f (lstrip ((a :: as).drop (splitPos (a :: as) M))))
          hws (ih _ hlen)
        have hdecomp : (a :: as).take (splitPos (a :: as) M) ++
            (((a :: as).drop (splitPos (a :: as) M)).takeWhile pyWS ++
              lstrip ((a :: as).drop (splitPos (a :: as) M))) = a :: as := by
          simp only [lstrip]
          rw [List.takeWhile_append_dropWhile]
          exact List.take_append_drop _ _
        rwa [hdecomp] at hr

theorem afterLit_replicate_none {a : Char} {l : List Char} {c : Char}
    {n : Nat} (h : a ≠ c) :
    afterLit (a :: l) (List.replicate n c) = none := by
  cases n with
  | zero => rfl
  | succ m => simp [List.replicate_succ, afterLit, h]

theorem rfindSub_replicate_none {a : Char} {l : List Char} {c : Char}
    {n e : Nat} (h : a ≠ c) :
    rfindSub (a :: l) (List.replicate n c) e = none := by
  unfold rfindSub
  rw [List.find?_eq_none]
  intro i _
  rw [List.drop_replicate, afterLit_replicate_none h]
  simp

theorem splitPos_replicate (n M : Nat) :
    splitPos (List.replicate n 'a') M = M := by
  have h2 : "\n\n".data = '\n' :: ['\n'] := rfl
  have h1 : "\n".data = '\n' :: [] := rfl
  have h0 : " ".data = ' ' :: [] := rfl
  unfold splitPos
  rw [h2, h1, h0, rfindSub_replicate_none (by decide),
    rfindSub_replicate_none (by decide), rfindSub_replicate_none (by decide)]
  rfl

theorem lstrip_replicate (n : Nat) :
    lstrip (List.replicate n 'a') = List.replicate n 'a' := by
  cases n with
  | zero => rfl
  | succ m =>
    show List.dropWhile pyWS ('a' :: List.replicate m 'a') = _
    rw [List.dropWhile_cons, if_neg (by decide)]
    exact (List.replicate_succ 'a' m).symm

theorem chunkLoop_stop {M f : Nat} {s : List Char} (hne : s ≠ [])
    (hle : s.length ≤ M) : chunkLoop M (f + 1) s = [s] := by
  cases s with
  | nil => exact absurd rfl hne
  | cons a as =>
    simp only [chunkLoop]
    rw [if_pos hle]

theorem chunkLoop_step {M f : Nat} {s : List Char} (hgt : M < s.length) :
    chunkLoop M (f + 1) s =
      s.take (splitPos s M) ::
        chunkLoop M f (lstrip (s.drop (splitPos s M))) := by
  cases s with
  | nil => simp at hgt
  | cons a as =>
    simp only [chunkLoop]
    rw [if_neg (Nat.not_le.mpr hgt)]

theorem chunkLoop_replicate_step {f n : Nat} (h : 2000 < n) :
    chunkLoop 2000 (f + 1) (List.replicate n 'a') =
      List.replicate 2000 'a' ::
        chunkLoop 2000 f (List.replicate (n - 2000) 'a') := by
  rw [chunkLoop_step (by rw [List.length_replicate]; exact h)]
  rw [splitPos_replicate, List.take_replicate, List.drop_replicate,
    lstrip_replicate, Nat.min_eq_left h.le]

theorem chunkMessage_hard_cut_5000 :
    chunkMessage (List.replicate 5000 'a') 2000 =
      [List.replicate 2000 'a', List.replicate 2000 'a',
        List.replicate 1000 'a'] := by
  have hne : ¬(List.replicate 5000 'a').length ≤ 2000 := by
    rw [List.length_replicate]; norm_num
  unfold chunkMessage
  rw [if_neg hne, List.length_replicate]
  have s1 := chunkLoop_replicate_step (f := 4999) (n := 5000) (by norm_num)
  norm_num at s1
  rw [s1]
  have s2 := chunkLoop_replicate_step (f := 4998) (n := 3000) (by norm_num)
  norm_num at s2
  rw [s2]
  have s3 : chunkLoop 2000 4998 (List.replicate 1000 'a') =
      [List.replicate 1000 'a'] := by
    have hne1000 : List.replicate 1000 'a' ≠ [] := by
      intro hcon
      have := congrArg List.length hcon
      rw [List.length_replicate] at this
      simp at this
    have := chunkLoop_stop (M := 2000) (f := 4997)
      (s := List.replicate 1000 'a') hne1000
      (by rw [List.length_replicate]; norm_num)
    norm_num at this
    exact this
  rw [s3]

/-- C3: for every text and positive limit, chunking yields chunks each
of length at most the limit, in order, whose concatenation restores the
text up to the whitespace dropped at each split boundary; a text within
the limit is returned as the single chunk; and 5000 non-breaking
characters with limit 2000 hard-cut into exactly three chunks of
lengths 2000, 2000, 1000. -/
theorem C3_chunking_contract :
    (∀ (text : List Char) (M : Nat), 0 < M →
      ((∀ c ∈ chunkMessage text M, c.length ≤ M) ∧
        Rejoins text (chunkMessage text M) ∧
        (text.length ≤ M → chunkMessage text M = [text]))) ∧
    chunkMessage (List.replicate 5000 'a') 2000 =
      [List.replicate 2000 'a', List.replicate 2000 'a',
        List.replicate 1000 'a'] ∧
    (chunkMessage (List.replicate 5000 'a') 2000).map List.length =
      [2000, 2000, 1000] := by
  refine ⟨?_, chunkMessage_hard_cut_5000, ?_⟩
  · intro text M hM
    refine ⟨?_, ?_, ?_⟩
    · intro c hc
      unfold chunkMessage at hc
      split at hc
      · rename_i hle
        simp only [List.mem_singleton] at hc
        subst hc
        exact hle
      · exact chunkLoop_length_le hM _ _ c hc
    · unfold chunkMessage
      split
      · exact Rejoins.single text
      · exact chunkLoop_rejoins hM _ text (Nat.le_refl _)
    · intro hle
      unfold chunkMessage
      rw [if_pos hle]
  · rw [chunkMessage_hard_cut_5000]
    rw [List.map_cons, List.map_cons, List.map_cons, List.map_nil,
      List.length_replicate, List.length_replicate]

/-- Witness for `C3_chunking_contract` at text `"hi"` and limit 3. -/
theorem C3_chunking_contract_witness :
    (0 : Nat) < 3 ∧
      ((∀ c ∈ chunkMessage "hi".data 3, c.length ≤ 3) ∧
        Rejoins "hi".data (chunkMessage "hi".data 3) ∧
        ("hi".data.length ≤ 3 → chunkMessage "hi".data 3 = ["hi".data])) :=
  ⟨by decide, C3_chunking_contract.1 "hi".data 3 (by decide)⟩
